import Mathlib

/-!
Shallow embedding of the LAN scanner in `scan.py` (repository f1je/bnx).

The Python program discovers live hosts on an IPv4 subnet with ARP sweeps,
diffs each sweep against the previous one, adapts its scan period to the
subnet size, and hot-reloads the target subnet from `ip.txt`.

Embedding choices:
  * IPv4 addresses are the strings Python produces (`str(iface.ip)` etc.),
    so snapshot keys are `String`.
  * A Python `dict` is an insertion-ordered association list
    `List (String × Device)` whose keys are unique.
  * The regex search `re.search(r"\d+\.\d+\.\d+\.\d+/\d+", line)` is
    embedded as a direct leftmost matcher for that fixed pattern
    (`matchAt` / `findFirst`); for this pattern greedy digit runs never
    backtrack, so maximal-munch digit spans give exactly `re` semantics.
  * `sys.exit(1)` raises `SystemExit`, which is not a subclass of
    `Exception`, so it escapes `except Exception` handlers; the reload
    step therefore has an explicit `exited` outcome.
-/

namespace BnxScan

/-- Classification of an address in one scan cycle, matching the four
console log prefixes in `Scanner.update`: `[ME]`, `[NEW]`, `[ON]`, `[OFF]`. -/
inductive Tag where
  | SELF
  | NEW
  | PRESENT
  | ABSENT
deriving DecidableEq, Repr

/-- One discovered device, the value stored in the `devices` dict built by
`ScanThread.run`: `{"ip": r.psrc, "mac": mac, "vendor": vendor}`. -/
structure Device where
  ip : String
  mac : String
  vendor : String
deriving DecidableEq, Repr

/-- A Python dict from IP string to device, in insertion order. -/
abbrev Snapshot := List (String × Device)

/-- The keys of a snapshot (the addresses). -/
def keys (m : Snapshot) : List String := m.map Prod.fst

/-- `Scanner.get_scan_interval`: adaptive period from the host count
(`self.hosts`, which is `network.num_addresses`). -/
def get_scan_interval (hosts : Nat) : Nat :=
  if hosts ≤ 256 then 1000
  else if hosts ≤ 1024 then 2000
  else 4000

/-- `MAX_HOSTS_WARNING = 4096   # /20`. -/
def MAX_HOSTS_WARNING : Nat := 4096

/-- `Scanner.safe_load_ip` logs the large-subnet advisory exactly when
`hosts > MAX_HOSTS_WARNING` on a successful load. -/
def warns_on (hosts : Nat) : Bool := MAX_HOSTS_WARNING < hosts

/-- Number of large-subnet advisories logged over the successful config
loads of one process run (each element is the `hosts` value of one
successful `safe_load_ip`). -/
def warning_count (loads : List Nat) : Nat := (loads.filter warns_on).length

/-- Scheduler state for the "one sweep in flight" discipline: the
`self.scanning` busy flag and a ghost counter of simultaneously running
`ScanThread`s. -/
structure SchedState where
  scanning : Bool
  active : Nat
deriving DecidableEq, Repr

/-- Events hitting the scheduler: a scan-timer tick (a call to
`Scanner.start_scan`) or the completion of the running sweep thread. -/
inductive SchedEvent where
  | tick
  | finish
deriving DecidableEq, Repr

/-- One scheduler transition.  `start_scan` returns at once when
`self.scanning` is set (the tick is dropped); otherwise it sets the flag
and starts one `ScanThread`.  The thread's `finished` signal clears the
flag and the thread ends. -/
def sched_step (s : SchedState) : SchedEvent → SchedState
  | .tick => if s.scanning then s else { scanning := true, active := s.active + 1 }
  | .finish => if s.scanning then { scanning := false, active := s.active - 1 } else s

/-- The scheduler starts idle (`self.scanning = False`, no thread). -/
def sched_init : SchedState := { scanning := false, active := 0 }

/-- Run the scheduler over a sequence of events. -/
def sched_run (evs : List SchedEvent) : SchedState := evs.foldl sched_step sched_init

theorem sched_step_inv (s : SchedState)
    (h : s.active = if s.scanning then 1 else 0) (e : SchedEvent) :
    (sched_step s e).active = if (sched_step s e).scanning then 1 else 0 := by
  cases e <;> simp only [sched_step] <;> by_cases hs : s.scanning <;>
    simp [hs] at h ⊢ <;> simp [h]

theorem sched_run_inv (evs : List SchedEvent) :
    (sched_run evs).active = if (sched_run evs).scanning then 1 else 0 := by
  have main : ∀ (l : List SchedEvent) (s : SchedState),
      s.active = (if s.scanning then 1 else 0) →
      (l.foldl sched_step s).active =
        if (l.foldl sched_step s).scanning then 1 else 0 := by
    intro l
    induction l with
    | nil => intro s hs; simpa using hs
    | cons e rest ih =>
        intro s hs
        exact ih (sched_step s e) (sched_step_inv s hs e)
  exact main evs sched_init (by simp [sched_init])

/-- C4: at most one sweep is ever in flight: along every event sequence
from the initial state the count of simultaneously active sweeps stays
≤ 1, and a tick arriving while a sweep runs leaves the state unchanged
(dropped, not queued). -/
theorem at_most_one_sweep :
    (∀ evs : List SchedEvent, (sched_run evs).active ≤ 1)
    ∧ (∀ s : SchedState, s.scanning = true → sched_step s .tick = s) := by
  constructor
  · intro evs
    have h := sched_run_inv evs
    by_cases hs : (sched_run evs).scanning <;> simp [hs] at h <;> omega
  · intro s hs
    simp [sched_step, hs]

/-- Witness for C4 at a concrete trace and a concrete busy state. -/
theorem at_most_one_sweep_witness :
    (sched_run [.tick, .tick, .finish, .tick] ).active ≤ 1
    ∧ sched_step { scanning := true, active := 1 } .tick
        = { scanning := true, active := 1 } :=
  ⟨at_most_one_sweep.1 [.tick, .tick, .finish, .tick],
   at_most_one_sweep.2 { scanning := true, active := 1 } rfl⟩

/-- C5: the interval policy returns 1000 ms up to 256 hosts, 2000 ms up
to 1024 hosts, 4000 ms above, and is monotone in the host count. -/
theorem get_scan_interval_breakpoints :
    (∀ n : Nat, n ≤ 256 → get_scan_interval n = 1000)
    ∧ (∀ n : Nat, 256 < n → n ≤ 1024 → get_scan_interval n = 2000)
    ∧ (∀ n : Nat, 1024 < n → get_scan_interval n = 4000)
    ∧ (∀ m n : Nat, m ≤ n → get_scan_interval m ≤ get_scan_interval n) := by
  refine ⟨?_, ?_, ?_, ?_⟩
  · intro n h; simp [get_scan_interval, h]
  · intro n h1 h2
    simp only [get_scan_interval]
    rw [if_neg (by omega), if_pos h2]
  · intro n h
    simp only [get_scan_interval]
    rw [if_neg (by omega), if_neg (by omega)]
  · intro m n h
    simp only [get_scan_interval]
    split_ifs <;> omega

/-- Witness for C5 at the three breakpoints and one monotone pair. -/
theorem get_scan_interval_breakpoints_witness :
    get_scan_interval 256 = 1000 ∧ get_scan_interval 1024 = 2000
    ∧ get_scan_interval 1025 = 4000
    ∧ get_scan_interval 100 ≤ get_scan_interval 2000 :=
  ⟨get_scan_interval_breakpoints.1 256 (by decide),
   get_scan_interval_breakpoints.2.1 1024 (by decide) (by decide),
   get_scan_interval_breakpoints.2.2.1 1025 (by decide),
   get_scan_interval_breakpoints.2.2.2 100 2000 (by decide)⟩

/-- C9 counterexample: two successful loads of an 8192-host subnet in one
run log the advisory twice — strictly more than once per process run. -/
theorem warning_not_once_per_run :
    warning_count [8192, 8192] = 2 ∧ 1 < warning_count [8192, 8192] := by
  decide

/-- C9 amended: the advisory is logged on every successful load whose
host count exceeds 4096 — one more advisory per such load — and a load
at or below 4096 adds none. -/
theorem warning_per_large_load :
    ∀ (loads : List Nat) (h : Nat),
      warning_count (loads ++ [h]) =
        warning_count loads + (if 4096 < h then 1 else 0) := by
  intro loads h
  simp only [warning_count, List.filter_append, List.length_append]
  by_cases hh : 4096 < h <;>
    simp [warns_on, MAX_HOSTS_WARNING, List.filter, hh]

/-! ### Config source: `load_network_from_file`

`re.search(r"\d+\.\d+\.\d+\.\d+/\d+", line)` scans for the leftmost
position where the pattern matches.  The pattern is five greedy digit
runs separated by three dots and one slash; each `\d+` is followed by a
non-digit (or the end of the pattern), so greedy matching never
backtracks and a maximal digit span is exactly what `re` matches. -/

/-- Python `str.strip()`: drop whitespace from both ends. -/
def pyStrip (cs : List Char) : List Char :=
  ((cs.dropWhile Char.isWhitespace).reverse.dropWhile Char.isWhitespace).reverse

/-- One `\d+` element: a nonempty maximal digit run. -/
def matchNum (cs : List Char) : Option (List Char × List Char) :=
  match cs.span Char.isDigit with
  | ([], _) => none
  | (d, rest) => some (d, rest)

/-- One literal character of the pattern. -/
def expectChar (c : Char) : List Char → Option (List Char)
  | [] => none
  | x :: rest => if x = c then some rest else none

/-- The five digit runs of one match of `\d+\.\d+\.\d+\.\d+/\d+`
(the four octet runs and the prefix-length run); together with the
separators they reconstitute `match.group(0)`. -/
abbrev CidrMatch := List Char × List Char × List Char × List Char × List Char

/-- Attempt to match the pattern at the start of the input. -/
def matchAt (cs : List Char) : Option CidrMatch := do
  let (d1, r1) ← matchNum cs
  let r1 ← expectChar '.' r1
  let (d2, r2) ← matchNum r1
  let r2 ← expectChar '.' r2
  let (d3, r3) ← matchNum r2
  let r3 ← expectChar '.' r3
  let (d4, r4) ← matchNum r3
  let r4 ← expectChar '/' r4
  let (d5, _) ← matchNum r4
  pure (d1, d2, d3, d4, d5)

/-- `re.search`: try each start position left to right, first hit wins. -/
def findFirst : List Char → Option CidrMatch
  | [] => none
  | c :: rest =>
    match matchAt (c :: rest) with
    | some m => some m
    | none => findFirst rest

/-- Numeric value of a digit run. -/
def digitsVal (d : List Char) : Nat :=
  d.foldl (fun a c => a * 10 + (c.toNat - 48)) 0

/-- One dotted-quad octet as accepted by Python `ipaddress`: at most 3
characters, no leading zero, value at most 255. -/
def parseOctet (d : List Char) : Option Nat :=
  if 3 < d.length then none
  else if 1 < d.length ∧ d.head? = some (Char.ofNat 48) then none
  else if 255 < digitsVal d then none
  else some (digitsVal d)

/-- The prefix length: a digit run whose value is at most 32. -/
def parsePrefix (d : List Char) : Option Nat :=
  if 32 < digitsVal d then none else some (digitsVal d)

/-- `str()` of an IPv4 address held as a 32-bit number. -/
def ipToString (n : Nat) : String :=
  Nat.repr (n / 16777216 % 256) ++ "." ++ Nat.repr (n / 65536 % 256)
    ++ "." ++ Nat.repr (n / 256 % 256) ++ "." ++ Nat.repr (n % 256)

/-- `load_network_from_file`: strip the text, search for the first
`\d+\.\d+\.\d+\.\d+/\d+` substring (raising `ValueError` when absent),
then let `ip_interface` parse it; on success return
`(str(network), str(iface.ip), network.num_addresses)`. -/
def load_network_from_file (text : String) : Except String (String × String × Nat) :=
  match findFirst (pyStrip text.toList) with
  | none => .error "No valid IP/CIDR found in ip.txt"
  | some (d1, d2, d3, d4, dp) =>
    match parseOctet d1, parseOctet d2, parseOctet d3, parseOctet d4, parsePrefix dp with
    | some a, some b, some c, some d, some p =>
      let addr := ((a * 256 + b) * 256 + c) * 256 + d
      let block := 2 ^ (32 - p)
      let net := addr - addr % block
      .ok (ipToString net ++ "/" ++ Nat.repr p, ipToString addr, block)
    | _, _, _, _, _ => .error "ValueError raised by ip_interface"

theorem matchAt_nil : matchAt [] = none := rfl

theorem findFirst_eq_none_iff (cs : List Char) :
    findFirst cs = none ↔ ∀ i, matchAt (cs.drop i) = none := by
  induction cs with
  | nil => simp [findFirst, matchAt_nil]
  | cons c rest ih =>
      constructor
      · intro h i
        have hsplit : matchAt (c :: rest) = none ∧ findFirst rest = none := by
          cases hm : matchAt (c :: rest) with
          | some m => simp [findFirst, hm] at h
          | none => simpa [findFirst, hm] using h
        cases i with
        | zero => simpa using hsplit.1
        | succ j => simpa using (ih.mp hsplit.2) j
      · intro h
        have h0 : matchAt (c :: rest) = none := h 0
        have hrest : findFirst rest = none := ih.mpr (fun i => h (i + 1))
        simp [findFirst, h0, hrest]

theorem findFirst_leftmost (cs : List Char) :
    ∀ (j : Nat) (m : CidrMatch), (∀ i, i < j → matchAt (cs.drop i) = none) →
      matchAt (cs.drop j) = some m → findFirst cs = some m := by
  induction cs with
  | nil =>
      intro j m _ hj
      simp [matchAt_nil] at hj
  | cons c rest ih =>
      intro j m hlt hj
      cases j with
      | zero =>
          simp only [List.drop_zero] at hj
          simp [findFirst, hj]
      | succ k =>
          have h0 : matchAt (c :: rest) = none := by
            simpa using hlt 0 (Nat.succ_pos k)
          have hk : matchAt (rest.drop k) = some m := by simpa using hj
          have hlt2 : ∀ i, i < k → matchAt (rest.drop i) = none := by
            intro i hi
            simpa using hlt (i + 1) (Nat.succ_lt_succ hi)
          simp [findFirst, h0, ih k m hlt2 hk]

/-- C6: config resolution takes the leftmost match of the
address/prefix pattern — when no position matches, the search fails and
`load_network_from_file` raises the `ValueError`; when some position
matches, the first matching position wins — and on
`"foo\n10.0.0.5/24\nbar"` it yields network `10.0.0.0/24`, host address
`10.0.0.5` and 256 addresses. -/
theorem load_network_from_file_spec :
    (∀ text : String, findFirst (pyStrip text.toList) = none →
      load_network_from_file text = .error "No valid IP/CIDR found in ip.txt")
    ∧ (∀ cs : List Char, findFirst cs = none ↔ ∀ i, matchAt (cs.drop i) = none)
    ∧ (∀ (cs : List Char) (j : Nat) (m : CidrMatch),
        (∀ i, i < j → matchAt (cs.drop i) = none) →
        matchAt (cs.drop j) = some m → findFirst cs = some m)
    ∧ load_network_from_file "foo\n10.0.0.5/24\nbar"
        = .ok ("10.0.0.0/24", "10.0.0.5", 256) := by
  refine ⟨?_, findFirst_eq_none_iff, findFirst_leftmost, ?_⟩
  · intro text h
    unfold load_network_from_file
    rw [h]
  · rfl

/-- Witness for C6: the error branch fires on a patternless text, and
the leftmost-match lemma applies at position 2 of `"ab1.2.3.4/5"`. -/
theorem load_network_from_file_spec_witness :
    load_network_from_file "hello" = .error "No valid IP/CIDR found in ip.txt"
    ∧ findFirst ("ab1.2.3.4/5".toList)
        = some ([Char.ofNat 49], [Char.ofNat 50], [Char.ofNat 51],
                [Char.ofNat 52], [Char.ofNat 53]) :=
  ⟨load_network_from_file_spec.1 "hello" (by decide),
   load_network_from_file_spec.2.2.1 "ab1.2.3.4/5".toList 2
     ([Char.ofNat 49], [Char.ofNat 50], [Char.ofNat 51],
      [Char.ofNat 52], [Char.ofNat 53])
     (by
       intro i hi
       have hcase : i = 0 ∨ i = 1 := by omega
       rcases hcase with rfl | rfl <;> decide)
     (by decide)⟩

/-! ### Device registry: `Scanner.update`

`Scanner.update(new_devices)` logs one line per address — `[ME]` /
`[NEW]` / `[ON]` over the fresh dict, then `[OFF]` over the baseline
addresses missing from the fresh dict — then installs `new_devices` as
`self.devices`.  Each log line is embedded as an `EmitEvent` carrying
exactly the fields that appear in the corresponding format string. -/

/-- One renderer/log event of a scan cycle.  `hardwareId` and `vendor`
are `Option`s because not every log line of `Scanner.update` interpolates
them. -/
structure EmitEvent where
  tag : Tag
  address : String
  hardwareId : Option String
  vendor : Option String
deriving DecidableEq, Repr

/-- The log line for one entry of the fresh dict:
`[ME] {ip} {mac}` when `ip == self.my_ip`, else `[NEW] {ip} {mac}
({vendor})` when `ip not in self.devices`, else `[ON] {ip} {mac}`. -/
def fresh_event (devices : Snapshot) (my_ip : String) (p : String × Device) : EmitEvent :=
  if p.1 = my_ip then ⟨Tag.SELF, p.1, some p.2.mac, none⟩
  else if p.1 ∉ keys devices then ⟨Tag.NEW, p.1, some p.2.mac, some p.2.vendor⟩
  else ⟨Tag.PRESENT, p.1, some p.2.mac, none⟩

/-- All log lines of one `Scanner.update` call: the fresh-dict loop,
then `[OFF] {ip}` for each baseline address not in `new_devices`. -/
def emit_events (devices new_devices : Snapshot) (my_ip : String) : List EmitEvent :=
  new_devices.map (fresh_event devices my_ip)
    ++ (devices.filter fun p => decide (p.1 ∉ keys new_devices)).map
        (fun p => ⟨Tag.ABSENT, p.1, none, none⟩)

/-- The classification part of the events: address and tag. -/
def classify (devices new_devices : Snapshot) (my_ip : String) : List (String × Tag) :=
  (emit_events devices new_devices my_ip).map (fun e => (e.address, e.tag))

/-- `Scanner.update`: emit the events, then `self.devices = new_devices`
(the second component is the new baseline). -/
def update (devices new_devices : Snapshot) (my_ip : String) :
    List EmitEvent × Snapshot :=
  (emit_events devices new_devices my_ip, new_devices)

/-- The tag assigned to a fresh address, as a function of the address. -/
def fresh_tag (devices : Snapshot) (my_ip ip : String) : Tag :=
  if ip = my_ip then Tag.SELF
  else if ip ∉ keys devices then Tag.NEW
  else Tag.PRESENT

theorem fresh_event_address (devices : Snapshot) (my_ip : String) (p : String × Device) :
    (fresh_event devices my_ip p).address = p.1 := by
  unfold fresh_event; split_ifs <;> rfl

theorem fresh_event_tag (devices : Snapshot) (my_ip : String) (p : String × Device) :
    (fresh_event devices my_ip p).tag = fresh_tag devices my_ip p.1 := by
  unfold fresh_event fresh_tag; split_ifs <;> rfl

theorem classify_eq (devices new_devices : Snapshot) (my_ip : String) :
    classify devices new_devices my_ip
      = new_devices.map (fun p => (p.1, fresh_tag devices my_ip p.1))
        ++ (devices.filter fun p => decide (p.1 ∉ keys new_devices)).map
            (fun p => (p.1, Tag.ABSENT)) := by
  unfold classify emit_events
  rw [List.map_append, List.map_map, List.map_map]
  congr 1
  apply List.map_congr_left
  intro p _
  simp [Function.comp, fresh_event_address, fresh_event_tag]

theorem mem_keys (m : Snapshot) (a : String) :
    a ∈ keys m ↔ ∃ p ∈ m, p.1 = a := by
  unfold keys
  simp [List.mem_map]

theorem mem_keys_filter (b f : Snapshot) (a : String) :
    a ∈ keys (b.filter fun p => decide (p.1 ∉ keys f))
      ↔ a ∈ keys b ∧ a ∉ keys f := by
  unfold keys
  simp only [List.mem_map, List.mem_filter, decide_eq_true_eq]
  constructor
  · rintro ⟨p, ⟨hp, hq⟩, rfl⟩
    exact ⟨⟨p, hp, rfl⟩, hq⟩
  · rintro ⟨⟨p, hp, rfl⟩, hq⟩
    exact ⟨p, ⟨hp, hq⟩, rfl⟩

theorem nodup_keys_filter (b : Snapshot) (q : String × Device → Bool)
    (h : (keys b).Nodup) : (keys (b.filter q)).Nodup :=
  ((List.filter_sublist b).map Prod.fst).nodup h

/-- C1: with the dict invariants (unique keys on both sides), one
`Scanner.update` classifies each address of the union exactly once —
the address list of the emitted classification has count one exactly on
`keys fresh ∪ keys baseline` — and membership of `(a, t)` in the
classification is exactly the SELF/NEW/PRESENT/ABSENT rule. -/
theorem update_classifies_each_address_once
    (devices new_devices : Snapshot) (my_ip : String)
    (hb : (keys devices).Nodup) (hf : (keys new_devices).Nodup) :
    (∀ a : String,
      ((classify devices new_devices my_ip).map Prod.fst).count a
        = if a ∈ keys new_devices ∨ a ∈ keys devices then 1 else 0)
    ∧ (∀ (a : String) (t : Tag),
        (a, t) ∈ classify devices new_devices my_ip ↔
          ((a ∈ keys new_devices ∧ a = my_ip ∧ t = Tag.SELF)
           ∨ (a ∈ keys new_devices ∧ a ≠ my_ip ∧ a ∉ keys devices ∧ t = Tag.NEW)
           ∨ (a ∈ keys new_devices ∧ a ≠ my_ip ∧ a ∈ keys devices ∧ t = Tag.PRESENT)
           ∨ (a ∈ keys devices ∧ a ∉ keys new_devices ∧ t = Tag.ABSENT))) := by
  have hkeys : (classify devices new_devices my_ip).map Prod.fst
      = keys new_devices
        ++ keys (devices.filter fun p => decide (p.1 ∉ keys new_devices)) := by
    rw [classify_eq, List.map_append, List.map_map, List.map_map]
    rfl
  constructor
  · intro a
    rw [hkeys, List.count_append]
    by_cases haf : a ∈ keys new_devices
    · rw [if_pos (Or.inl haf)]
      rw [List.count_eq_one_of_mem hf haf]
      have : a ∉ keys (devices.filter fun p => decide (p.1 ∉ keys new_devices)) := by
        rw [mem_keys_filter]
        rintro ⟨_, hno⟩
        exact hno haf
      rw [List.count_eq_zero.mpr this]
    · by_cases hab : a ∈ keys devices
      · rw [if_pos (Or.inr hab)]
        rw [List.count_eq_zero.mpr haf]
        have hmem : a ∈ keys (devices.filter fun p => decide (p.1 ∉ keys new_devices)) :=
          (mem_keys_filter devices new_devices a).mpr ⟨hab, haf⟩
        rw [List.count_eq_one_of_mem (nodup_keys_filter devices _ hb) hmem]
      · rw [if_neg (by tauto)]
        rw [List.count_eq_zero.mpr haf]
        rw [List.count_eq_zero.mpr (by
          rw [mem_keys_filter]
          rintro ⟨h1, _⟩
          exact hab h1)]
  · intro a t
    rw [classify_eq, List.mem_append]
    have hmem1 : (a, t) ∈ new_devices.map (fun p => (p.1, fresh_tag devices my_ip p.1))
        ↔ a ∈ keys new_devices ∧ t = fresh_tag devices my_ip a := by
      simp only [List.mem_map, mem_keys, Prod.mk.injEq]
      constructor
      · rintro ⟨p, hp, rfl, rfl⟩
        exact ⟨⟨p, hp, rfl⟩, rfl⟩
      · rintro ⟨⟨p, hp, rfl⟩, rfl⟩
        exact ⟨p, hp, rfl, rfl⟩
    have hmem2 : (a, t) ∈ (devices.filter fun p => decide (p.1 ∉ keys new_devices)).map
          (fun p => (p.1, Tag.ABSENT))
        ↔ (a ∈ keys devices ∧ a ∉ keys new_devices) ∧ t = Tag.ABSENT := by
      simp only [List.mem_map, List.mem_filter, decide_eq_true_eq, Prod.mk.injEq]
      constructor
      · rintro ⟨p, ⟨hp, hq⟩, rfl, rfl⟩
        exact ⟨⟨(mem_keys devices p.1).mpr ⟨p, hp, rfl⟩, hq⟩, rfl⟩
      · rintro ⟨⟨hab, haf⟩, rfl⟩
        obtain ⟨p, hp, rfl⟩ := (mem_keys devices a).mp hab
        exact ⟨p, ⟨hp, haf⟩, rfl, rfl⟩
    rw [hmem1, hmem2]
    unfold fresh_tag
    by_cases hm : a = my_ip
    · subst hm
      by_cases haf : a ∈ keys new_devices <;> by_cases hab : a ∈ keys devices <;>
        simp [haf, hab]
    · by_cases haf : a ∈ keys new_devices <;> by_cases hab : a ∈ keys devices <;>
        simp [haf, hab, hm]

/-- Concrete devices used by witnesses and counterexamples. -/
def exDev5 : Device := ⟨"10.0.0.5", "aa:bb:cc:dd:ee:05", "VendorFive"⟩

/-- A second concrete device. -/
def exDev9 : Device := ⟨"10.0.0.9", "aa:bb:cc:dd:ee:09", "VendorNine"⟩

/-- A concrete two-entry baseline dict. -/
def exBaseline : Snapshot := [("10.0.0.5", exDev5), ("10.0.0.9", exDev9)]

/-- A concrete one-entry fresh dict. -/
def exFresh : Snapshot := [("10.0.0.5", exDev5)]

/-- Witness for C1 on a concrete diff: the address that disappeared is
classified exactly once, as ABSENT. -/
theorem update_classifies_each_address_once_witness :
    ((classify exBaseline exFresh "10.0.0.5").map Prod.fst).count "10.0.0.9" = 1
    ∧ ("10.0.0.9", Tag.ABSENT) ∈ classify exBaseline exFresh "10.0.0.5" := by
  have h := update_classifies_each_address_once exBaseline exFresh "10.0.0.5"
    (by decide) (by decide)
  refine ⟨?_, ?_⟩
  · rw [h.1 "10.0.0.9", if_pos (Or.inr (by decide))]
  · exact (h.2 "10.0.0.9" Tag.ABSENT).mpr
      (Or.inr (Or.inr (Or.inr ⟨by decide, by decide, rfl⟩)))

/-- C7: the installed baseline is the fresh dict verbatim, and every
baseline address missing from the fresh dict is classified ABSENT in
that same cycle. -/
theorem update_replaces_baseline (devices new_devices : Snapshot) (my_ip : String) :
    (update devices new_devices my_ip).2 = new_devices
    ∧ (∀ a : String, a ∈ keys devices → a ∉ keys new_devices →
        (a, Tag.ABSENT) ∈ classify devices new_devices my_ip) := by
  refine ⟨rfl, ?_⟩
  intro a hab haf
  rw [classify_eq, List.mem_append]
  right
  obtain ⟨p, hp, rfl⟩ := (mem_keys devices a).mp hab
  exact List.mem_map.mpr ⟨p, List.mem_filter.mpr ⟨hp, by simpa using haf⟩, rfl⟩

/-- Witness for C7: a host present in the baseline for arbitrarily many
prior cycles but missing from this sweep is ABSENT now. -/
theorem update_replaces_baseline_witness :
    (update exBaseline exFresh "10.0.0.1").2 = exFresh
    ∧ ("10.0.0.9", Tag.ABSENT) ∈ classify exBaseline exFresh "10.0.0.1" :=
  ⟨(update_replaces_baseline exBaseline exFresh "10.0.0.1").1,
   (update_replaces_baseline exBaseline exFresh "10.0.0.1").2 "10.0.0.9"
     (by decide) (by decide)⟩

/-- C8 counterexample: with baseline `{10.0.0.5, 10.0.0.9}` and an empty
sweep, the emitted `[OFF]` events carry no hardware id and no vendor, so
not every event carries the full DiscoveredDevice payload. -/
theorem emit_events_missing_fields :
    ((emit_events exBaseline [] "10.0.0.1").all
      fun e => e.hardwareId.isSome && e.vendor.isSome) = false := by
  decide

/-- C8 amended: every event of a cycle carries the tag and the address;
SELF and PRESENT events additionally carry the hardware id but no
vendor; NEW events carry hardware id and vendor; ABSENT events carry
neither. -/
theorem emit_events_payload (devices new_devices : Snapshot) (my_ip : String) :
    ∀ e ∈ emit_events devices new_devices my_ip,
      (e.tag = Tag.NEW → e.hardwareId.isSome ∧ e.vendor.isSome)
      ∧ (e.tag = Tag.SELF ∨ e.tag = Tag.PRESENT →
          e.hardwareId.isSome ∧ e.vendor = none)
      ∧ (e.tag = Tag.ABSENT → e.hardwareId = none ∧ e.vendor = none) := by
  intro e he
  rcases List.mem_append.mp he with h1 | h2
  · obtain ⟨p, _, rfl⟩ := List.mem_map.mp h1
    unfold fresh_event
    split_ifs <;> simp
  · obtain ⟨p, _, rfl⟩ := List.mem_map.mp h2
    simp

/-- Witness for C8 amended, on the concrete diff of `exBaseline`
against `exFresh`. -/
theorem emit_events_payload_witness :
    (⟨Tag.ABSENT, "10.0.0.9", none, none⟩ : EmitEvent).hardwareId = none
    ∧ (⟨Tag.ABSENT, "10.0.0.9", none, none⟩ : EmitEvent).vendor = none :=
  (emit_events_payload exBaseline exFresh "10.0.0.1"
    ⟨Tag.ABSENT, "10.0.0.9", none, none⟩ (by decide)).2.2 rfl

/-! ### Discovery probe: `ScanThread.run`

The sweep walks the ARP replies in order and executes
`devices[r.psrc] = {"ip": r.psrc, "mac": mac, "vendor": vendor}` with
`mac = r.hwsrc.lower()` and
`vendor = self.parser.get_manuf(mac) or "Unknown"`.  A Python dict
assignment overwrites the value of an existing key in place (keeping
its position) and appends a new key at the end. -/

/-- Python `str.lower()` on an ASCII MAC string. -/
def py_lower (s : String) : String := String.mk (s.data.map Char.toLower)

/-- One reply `r`: `(r.psrc, r.hwsrc)`. -/
abbrev Reply := String × String

/-- `devices[k] = v` on a Python dict. -/
def dict_set (m : Snapshot) (k : String) (v : Device) : Snapshot :=
  if k ∈ keys m then m.map (fun p => if p.1 = k then (k, v) else p)
  else m ++ [(k, v)]

/-- `devices[k]` as a total lookup. -/
def dict_get (k : String) : Snapshot → Option Device
  | [] => none
  | p :: rest => if p.1 = k then some p.2 else dict_get k rest

/-- The dict entry built from one reply, with the vendor coming from
the MAC-prefix parser (`None`/falsy becomes `"Unknown"`). -/
def mk_device (get_manuf : String → Option String) (r : Reply) : Device :=
  { ip := r.1, mac := py_lower r.2, vendor := (get_manuf (py_lower r.2)).getD "Unknown" }

/-- `ScanThread.run`: fold the replies into the `devices` dict. -/
def ScanThread_run (get_manuf : String → Option String) (answers : List Reply) : Snapshot :=
  answers.foldl (fun devices r => dict_set devices r.1 (mk_device get_manuf r)) []

/-- The last reply of the sweep whose source address is `k`. -/
def last_reply (k : String) (answers : List Reply) : Option Reply :=
  answers.foldl (fun acc r => if r.1 = k then some r else acc) none

theorem dict_get_eq_none_iff (k : String) (m : Snapshot) :
    dict_get k m = none ↔ k ∉ keys m := by
  induction m with
  | nil => simp [dict_get, keys]
  | cons p rest ih =>
      by_cases hp : p.1 = k
      · simp [dict_get, hp, keys]
      · simp [dict_get, hp, keys, ih]
        intro h
        exact fun hk => hp hk.symm

theorem dict_get_append (k : String) (m l : Snapshot) :
    dict_get k (m ++ l)
      = match dict_get k m with
        | some d => some d
        | none => dict_get k l := by
  induction m with
  | nil => simp [dict_get]
  | cons p rest ih =>
      by_cases hp : p.1 = k <;> simp [dict_get, hp, ih]

theorem dict_get_set_self (m : Snapshot) (k : String) (v : Device) :
    dict_get k (dict_set m k v) = some v := by
  unfold dict_set
  by_cases hk : k ∈ keys m
  · rw [if_pos hk]
    induction m with
    | nil => simp [keys] at hk
    | cons p rest ih =>
        by_cases hp : p.1 = k
        · simp [dict_get, hp]
        · have hk2 : k ∈ keys rest := by
            simp [keys] at hk ⊢
            rcases hk with h | h
            · exact absurd h.symm hp
            · exact h
          simp [dict_get, hp, ih hk2]
  · rw [if_neg hk, dict_get_append, (dict_get_eq_none_iff k m).mpr hk]
    simp [dict_get]

theorem dict_get_map_update (m : Snapshot) (j k : String) (v : Device) (h : j ≠ k) :
    dict_get j (m.map fun p => if p.1 = k then (k, v) else p) = dict_get j m := by
  induction m with
  | nil => rfl
  | cons p rest ih =>
      by_cases hp : p.1 = k
      · have hkj : ¬ k = j := fun hj => h hj.symm
        have hpj : ¬ p.1 = j := by rw [hp]; exact hkj
        simp [dict_get, hp, hkj, hpj, ih]
      · by_cases hpj : p.1 = j <;> simp [dict_get, hp, hpj, h, ih]

theorem dict_get_set_other (m : Snapshot) (j k : String) (v : Device) (h : j ≠ k) :
    dict_get j (dict_set m k v) = dict_get j m := by
  unfold dict_set
  by_cases hk : k ∈ keys m
  · rw [if_pos hk]
    exact dict_get_map_update m j k v h
  · rw [if_neg hk, dict_get_append]
    cases hm : dict_get j m with
    | some d => rfl
    | none =>
        simp [dict_get]
        exact fun hj => h hj.symm

theorem keys_dict_set (m : Snapshot) (k : String) (v : Device) :
    keys (dict_set m k v) = if k ∈ keys m then keys m else keys m ++ [k] := by
  unfold dict_set
  by_cases hk : k ∈ keys m
  · rw [if_pos hk, if_pos hk]
    unfold keys
    rw [List.map_map]
    apply List.map_congr_left
    intro p _
    by_cases hp : p.1 = k <;> simp [hp, Function.comp]
  · rw [if_neg hk, if_neg hk]
    simp [keys]

theorem nodup_keys_dict_set (m : Snapshot) (k : String) (v : Device)
    (h : (keys m).Nodup) : (keys (dict_set m k v)).Nodup := by
  rw [keys_dict_set]
  by_cases hk : k ∈ keys m
  · rwa [if_pos hk]
  · rw [if_neg hk]
    refine h.append (List.nodup_singleton k) ?_
    intro a ha hb
    rw [List.mem_singleton] at hb
    subst hb
    exact hk ha

theorem ip_field_dict_set (m : Snapshot) (k : String) (v : Device)
    (hm : ∀ p ∈ m, p.2.ip = p.1) (hv : v.ip = k) :
    ∀ p ∈ dict_set m k v, p.2.ip = p.1 := by
  unfold dict_set
  by_cases hk : k ∈ keys m <;> simp only [hk, if_pos, if_neg, if_true, if_false]
  · intro p hp
    obtain ⟨q, hq, rfl⟩ := List.mem_map.mp hp
    by_cases hqk : q.1 = k
    · simpa [hqk] using hv
    · simpa [hqk] using hm q hq
  · intro p hp
    rcases List.mem_append.mp hp with h1 | h2
    · exact hm p h1
    · simp only [List.mem_singleton] at h2
      subst h2
      exact hv

theorem run_lookup_aux (get_manuf : String → Option String) (k : String) :
    ∀ (answers : List Reply) (m : Snapshot) (a : Option Reply),
      dict_get k m = a.map (mk_device get_manuf) →
      dict_get k (answers.foldl
          (fun devices r => dict_set devices r.1 (mk_device get_manuf r)) m)
        = (answers.foldl (fun acc r => if r.1 = k then some r else acc) a).map
            (mk_device get_manuf) := by
  intro answers
  induction answers with
  | nil => intro m a h; simpa using h
  | cons r rest ih =>
      intro m a h
      simp only [List.foldl_cons]
      by_cases hr : r.1 = k
      · apply ih
        rw [if_pos hr]
        subst hr
        rw [dict_get_set_self]
        rfl
      · apply ih
        rw [if_neg hr, dict_get_set_other m k r.1 _ (fun hj => hr hj.symm), h]

/-- C10: the dict a sweep installs has unique address keys, every
entry's stored `ip` field equals its key, and looking up an address
returns exactly the device built from the last reply of the sweep with
that source address (later duplicates overwrite earlier ones). -/
theorem ScanThread_run_registry (get_manuf : String → Option String)
    (answers : List Reply) :
    (keys (ScanThread_run get_manuf answers)).Nodup
    ∧ (∀ p ∈ ScanThread_run get_manuf answers, p.2.ip = p.1)
    ∧ (∀ k : String, dict_get k (ScanThread_run get_manuf answers)
        = (last_reply k answers).map (mk_device get_manuf)) := by
  refine ⟨?_, ?_, ?_⟩
  · unfold ScanThread_run
    have main : ∀ (l : List Reply) (m : Snapshot), (keys m).Nodup →
        (keys (l.foldl (fun devices r => dict_set devices r.1 (mk_device get_manuf r)) m)).Nodup := by
      intro l
      induction l with
      | nil => intro m hm; simpa using hm
      | cons r rest ih =>
          intro m hm
          exact ih _ (nodup_keys_dict_set m r.1 _ hm)
    exact main answers [] (by simp [keys])
  · unfold ScanThread_run
    have main : ∀ (l : List Reply) (m : Snapshot), (∀ p ∈ m, p.2.ip = p.1) →
        ∀ p ∈ l.foldl (fun devices r => dict_set devices r.1 (mk_device get_manuf r)) m,
          p.2.ip = p.1 := by
      intro l
      induction l with
      | nil => intro m hm; simpa using hm
      | cons r rest ih =>
          intro m hm
          exact ih _ (ip_field_dict_set m r.1 _ hm rfl)
    exact main answers [] (by simp)
  · intro k
    exact run_lookup_aux get_manuf k answers [] none rfl

/-- A concrete sweep with a duplicated source address and an upper-case
MAC in the first reply. -/
def exAnswers : List Reply :=
  [("10.0.0.7", "AA:BB:CC:DD:EE:07"), ("10.0.0.7", "11:22:33:44:55:66")]

/-- Witness for C10: the duplicated address keeps one entry, holding
the lower-cased MAC of the last reply, and the entry's ip field equals
its key. -/
theorem ScanThread_run_registry_witness :
    (keys (ScanThread_run (fun _ => none) exAnswers)).Nodup
    ∧ dict_get "10.0.0.7" (ScanThread_run (fun _ => none) exAnswers)
        = some ⟨"10.0.0.7", "11:22:33:44:55:66", "Unknown"⟩
    ∧ (("10.0.0.7", mk_device (fun _ => none) ("10.0.0.7", "11:22:33:44:55:66"))
        : String × Device).2.ip = "10.0.0.7" := by
  have h := ScanThread_run_registry (fun _ => none) exAnswers
  refine ⟨h.1, ?_, ?_⟩
  · rw [h.2.2 "10.0.0.7"]
    decide
  · exact h.2.1 ("10.0.0.7", mk_device (fun _ => none) ("10.0.0.7", "11:22:33:44:55:66"))
      (by decide)

/-! ### Config watcher: `Scanner.check_ip_file` / `Scanner.safe_load_ip`

`check_ip_file` runs on the 1000 ms watch timer.  It stats `ip.txt`;
on a changed mtime it calls `safe_load_ip`, which re-runs
`load_network_from_file` and on any `Exception` logs `[ERROR]` and
calls `sys.exit(1)`.  `sys.exit` raises `SystemExit`, which derives
from `BaseException`, not `Exception`, so the `except Exception: pass`
in `check_ip_file` does not catch it and the process terminates.
Note what `check_ip_file` never touches: `self.devices` and the
running `QTimer` (whose interval is set once in `__init__` via
`self.timer.start(self.get_scan_interval())`). -/

/-- The scanner fields involved in a reload.  `timer_interval` is the
interval the scan `QTimer` was started with. -/
structure ScannerState where
  network : String
  my_ip : String
  hosts : Nat
  last_ip_mtime : Nat
  devices : Snapshot
  timer_interval : Nat
deriving DecidableEq, Repr

/-- Result of one watch-timer tick: either the process continues in a
(possibly updated) state, or it terminates with an exit code. -/
inductive StepOutcome where
  | next (st : ScannerState)
  | exited (code : Nat)
deriving DecidableEq, Repr

/-- One `check_ip_file` tick.  `file` is the observable content of
`ip.txt`: `none` when `stat` raises (caught by `except Exception:
pass`), otherwise the mtime together with the text (`none` when
`read_text` raises inside `load_network_from_file`). -/
def check_ip_file (st : ScannerState) (file : Option (Nat × Option String)) : StepOutcome :=
  match file with
  | none => .next st
  | some (mtime, readResult) =>
    if mtime = st.last_ip_mtime then .next st
    else
      match readResult with
      | none => .exited 1
      | some text =>
        match load_network_from_file text with
        | .ok (n, ip, h) =>
            .next { st with network := n, my_ip := ip, hosts := h, last_ip_mtime := mtime }
        | .error _ => .exited 1

/-- A concrete state after a successful startup on `10.0.0.0/24`. -/
def exState : ScannerState :=
  { network := "10.0.0.0/24", my_ip := "10.0.0.5", hosts := 256,
    last_ip_mtime := 1, devices := [("10.0.0.9", exDev9)], timer_interval := 1000 }

/-- C2: a reload whose source has no valid pattern, or whose source is
unreadable, ends in `sys.exit(1)`: the `SystemExit` escapes the
`except Exception` handler, so the watch tick terminates the process
instead of keeping the previous SubnetDefinition active. -/
theorem check_ip_file_reload_failure_exits :
    check_ip_file exState (some (2, some "garbage")) = .exited 1
    ∧ check_ip_file exState (some (2, none)) = .exited 1 := by
  constructor <;> rfl

/-- C3 counterexample: a detected change from `10.0.0.0/24` to
`10.0.0.1/22` resolves successfully, yet the resulting state keeps the
old device baseline (not reset to empty) and the old 1000 ms timer
interval, although the policy for the new 1024-address subnet is
2000 ms. -/
theorem reload_keeps_old_baseline_and_period :
    check_ip_file exState (some (2, some "10.0.0.1/22"))
      = .next { network := "10.0.0.0/22", my_ip := "10.0.0.1", hosts := 1024,
                last_ip_mtime := 2, devices := [("10.0.0.9", exDev9)],
                timer_interval := 1000 }
    ∧ ([("10.0.0.9", exDev9)] : Snapshot).isEmpty = false
    ∧ get_scan_interval 1024 = 2000 ∧ Nat.beq 1000 2000 = false := by
  refine ⟨rfl, rfl, rfl, rfl⟩

/-- C3 amended: a detected change that resolves successfully replaces
`network`, `my_ip` and `hosts` and records the new mtime, while the
device baseline and the running scan-timer interval are left exactly as
they were. -/
theorem check_ip_file_reload_success (st : ScannerState) (mtime : Nat) (text : String)
    (n ip : String) (h : Nat)
    (hm : ¬ mtime = st.last_ip_mtime)
    (hl : load_network_from_file text = .ok (n, ip, h)) :
    check_ip_file st (some (mtime, some text))
        = .next { st with network := n, my_ip := ip, hosts := h, last_ip_mtime := mtime }
    ∧ ({ st with network := n, my_ip := ip, hosts := h, last_ip_mtime := mtime }
        : ScannerState).devices = st.devices
    ∧ ({ st with network := n, my_ip := ip, hosts := h, last_ip_mtime := mtime }
        : ScannerState).timer_interval = st.timer_interval := by
  refine ⟨?_, rfl, rfl⟩
  simp only [check_ip_file]
  rw [if_neg hm, hl]

/-- Witness for C3 amended at the concrete reload of
`reload_keeps_old_baseline_and_period`. -/
theorem check_ip_file_reload_success_witness :
    check_ip_file exState (some (2, some "10.0.0.1/22"))
        = .next { exState with network := "10.0.0.0/22", my_ip := "10.0.0.1", hosts := 1024, last_ip_mtime := 2 }
    ∧ ({ exState with network := "10.0.0.0/22", my_ip := "10.0.0.1", hosts := 1024, last_ip_mtime := 2 } : ScannerState).devices = exState.devices
    ∧ ({ exState with network := "10.0.0.0/22", my_ip := "10.0.0.1", hosts := 1024, last_ip_mtime := 2 } : ScannerState).timer_interval = exState.timer_interval :=
  check_ip_file_reload_success exState 2 "10.0.0.1/22" "10.0.0.0/22" "10.0.0.1" 1024
    (by decide) rfl

end BnxScan
